import Mathlib

/-!
Shallow embedding of the scoring core of the `generative-engine-optimization`
repository: `GEOMetrics` (src/geo_metrics.py) and the text-scoring part of
`SEOAnalyzer` (src/seo_analyzer.py).

Python strings are modelled as `List Char`; Python float arithmetic is modelled
exactly over `ℚ` (and over `ℝ` where `math.exp` is involved).  A Python
operation that can produce a runtime fault or an undefined (NaN) value is
modelled with `Option`: `none` marks the fault/NaN, `some` the defined result.
-/

/-- Python's whitespace class, as used by `str.split()` / `str.strip()` and by
the regex class `\s` (ASCII part; the texts involved use only these). -/
def pyIsSpace (c : Char) : Bool :=
  c = ' ' || c = '\t' || c = '\n' || c = '\r' || c = '\x0b' || c = '\x0c'

/-- Model of Python `str.lower` on one character: ASCII `A`–`Z` plus the
single-character upper-case Turkish letters that can occur in this
repository's texts.  (The pattern literals themselves are already
lower-case.) -/
def lowerChar (c : Char) : Char :=
  if 'A' ≤ c && c ≤ 'Z' then Char.ofNat (c.toNat + 32)
  else if c = 'Ç' then 'ç'
  else if c = 'Ğ' then 'ğ'
  else if c = 'Ö' then 'ö'
  else if c = 'Ş' then 'ş'
  else if c = 'Ü' then 'ü'
  else c

/-- Python `text.lower()`. -/
def lowerStr (s : List Char) : List Char := s.map lowerChar

/-- `needle` occurs at the very beginning of `hay`. -/
def headMatch : List Char → List Char → Bool
  | [], _ => true
  | _ :: _, [] => false
  | a :: as, b :: bs => a == b && headMatch as bs

/-- Python's substring test `needle in hay`. -/
def containsSub (needle : List Char) : List Char → Bool
  | [] => headMatch needle []
  | c :: cs => headMatch needle (c :: cs) || containsSub needle cs

/-- Worker for `splitWs`: accumulates the current (reversed) word. -/
def splitWsAux : List Char → List Char → List (List Char)
  | [], acc => if acc.isEmpty then [] else [acc.reverse]
  | c :: cs, acc =>
    if pyIsSpace c then
      if acc.isEmpty then splitWsAux cs [] else acc.reverse :: splitWsAux cs []
    else splitWsAux cs (c :: acc)

/-- Python `text.split()` (no separator argument): the maximal runs of
non-whitespace characters. -/
def splitWs (s : List Char) : List (List Char) := splitWsAux s []

/-- Python `len(text.split())`. -/
def wordCount (s : List Char) : ℕ := (splitWs s).length

/-- Python `text.strip()`. -/
def pyStrip (s : List Char) : List Char :=
  ((s.dropWhile pyIsSpace).reverse.dropWhile pyIsSpace).reverse

/-- The sentence-terminal characters of the regex class `[.!?]`. -/
def isSentDelim (c : Char) : Bool := c = '.' || c = '!' || c = '?'

/-- Python `re.split('[.!?]', text)`: the pieces between single delimiter
occurrences, empty pieces included. -/
def splitOnDelim : List Char → List (List Char)
  | [] => [[]]
  | c :: cs =>
    if isSentDelim c then [] :: splitOnDelim cs
    else
      match splitOnDelim cs with
      | [] => [[c]]
      | p :: ps => (c :: p) :: ps

/-- `GEOMetrics.split_into_sentences`: split on `[.!?]`, strip each piece,
drop the empty ones. -/
def split_into_sentences (text : List Char) : List (List Char) :=
  (splitOnDelim text).filterMap fun s =>
    let t := pyStrip s
    if t.isEmpty then none else some t

/-- Inner loop of `GEOMetrics.find_source_positions`
(`for i, response in enumerate(response_sentences, 1): if source.lower() in
response.lower(): ... break`): the index, counted from `start`, of the first
response sentence whose lower-cased text contains the lower-cased source
sentence. -/
def firstContainIdx (source : List Char) : List (List Char) → ℕ → Option ℕ
  | [], _ => none
  | r :: rs, start =>
    if containsSub (lowerStr source) (lowerStr r) then some start
    else firstContainIdx source rs (start + 1)

/-- `GEOMetrics.find_source_positions`. -/
def find_source_positions (sources responses : List (List Char)) : List (ℕ × ℕ) :=
  sources.foldl
    (fun positions source =>
      match firstContainIdx source responses 1 with
      | some i => positions ++ [(wordCount source, i)]
      | none => positions)
    []

/-- Python's `/` on numbers: a `ZeroDivisionError` is modelled as `none`. -/
def pyDiv (a b : ℚ) : Option ℚ := if b = 0 then none else some (a / b)

/-- Python's `/`, real-valued version (for the metric involving `math.exp`). -/
noncomputable def pyDivR (a b : ℝ) : Option ℝ := if b = 0 then none else some (a / b)

/-- `GEOMetrics.word_count_metric`. -/
def word_count_metric (source_words total_words : ℤ) : Option ℚ :=
  if total_words = 0 then some 0 else pyDiv source_words total_words

/-- The accumulation loop of `GEOMetrics.position_adjusted_metric`:
`weighted_sum += word_count * math.exp(-position / lambda_decay)`. -/
noncomputable def weightedSum (lam : ℝ) (sentences : List (ℕ × ℕ)) : ℝ :=
  sentences.foldl (fun acc wp => acc + (wp.1 : ℝ) * Real.exp (-(wp.2 : ℝ) / lam)) 0

/-- `GEOMetrics.position_adjusted_metric`, with the decay constant
`lam` (`lambda_decay`, default `10`) as a parameter. -/
noncomputable def position_adjusted_metric (lam : ℝ) (sentences : List (ℕ × ℕ))
    (total_words : ℕ) : Option ℝ :=
  if total_words = 0 then some 0
  else pyDivR (weightedSum lam sentences) (total_words : ℝ)

/-! ### Pattern matching (`re.finditer` over this repository's patterns)

Each pattern is modelled by a matcher `List Char → Option ℕ` returning the
length of the (unique, greedy) match at the head of the remaining text, if
any.  `countScan` then performs the non-overlapping left-to-right scan of
`re.finditer` and counts the matches.  All patterns below match at least one
character, so zero-width matches do not arise. -/

/-- Length of the maximal run of ASCII digits (`\d+`, greedy) at the head. -/
def digitRun : List Char → ℕ
  | [] => 0
  | c :: cs => if c.isDigit then digitRun cs + 1 else 0

/-- Length of the maximal run of whitespace (`\s*`, greedy) at the head. -/
def wsRun : List Char → ℕ
  | [] => 0
  | c :: cs => if pyIsSpace c then wsRun cs + 1 else 0

/-- 1-based index of the last newline of a list, if any. -/
def lastNl : List Char → Option ℕ
  | [] => none
  | c :: cs =>
    match lastNl cs with
    | some k => some (k + 1)
    | none => if c = '\n' then some 1 else none

/-- Matcher for a literal pattern (a regex without metacharacters). -/
def litM (pat : List Char) (hay : List Char) : Option ℕ :=
  if headMatch pat hay then some pat.length else none

/-- Matcher for `\d+%`. -/
def numPercentM (hay : List Char) : Option ℕ :=
  let r := digitRun hay
  if r = 0 then none
  else
    match List.drop r hay with
    | '%' :: _ => some (r + 1)
    | _ => none

/-- Matcher for `\d+ (w₁|w₂|…)` (digits, one space, then the first matching
alternative; as in `match.group()`, the whole match is counted). -/
def numWordM (ws : List (List Char)) (hay : List Char) : Option ℕ :=
  let r := digitRun hay
  if r = 0 then none
  else
    match List.drop r hay with
    | ' ' :: rest =>
      match ws.find? (fun w => headMatch w rest) with
      | some w => some (r + 1 + w.length)
      | none => none
    | _ => none

/-- Matcher for `\d+\.\d+`. -/
def decimalM (hay : List Char) : Option ℕ :=
  let r := digitRun hay
  if r = 0 then none
  else
    match List.drop r hay with
    | '.' :: rest =>
      let r2 := digitRun rest
      if r2 = 0 then none else some (r + 1 + r2)
    | _ => none

/-- Matcher for `\[\d+\]`. -/
def bracketNumM (hay : List Char) : Option ℕ :=
  match hay with
  | '[' :: rest =>
    let r := digitRun rest
    if r = 0 then none
    else
      match List.drop r rest with
      | ']' :: _ => some (r + 2)
      | _ => none
  | _ => none

/-- Matcher for `\(\d{4}\)`: exactly four digits between parentheses. -/
def yearParenM (hay : List Char) : Option ℕ :=
  match hay with
  | '(' :: rest =>
    if (List.take 4 rest).length = 4 && (List.take 4 rest).all Char.isDigit then
      match List.drop 4 rest with
      | ')' :: _ => some 6
      | _ => none
    else none
  | _ => none

/-- Matcher for the paragraph separator `\n\s*\n`: a newline, then — after the
greedy `\s*` backtracks — up to and including the last newline of the
following whitespace run. -/
def paraSepM (hay : List Char) : Option ℕ :=
  match hay with
  | '\n' :: rest =>
    match lastNl (List.take (wsRun rest) rest) with
    | some k => some (k + 1)
    | none => none
  | _ => none

/-- Worker for `countScan`, with explicit fuel (one unit per character) making
the recursion structural; `countScan` supplies enough fuel, so this equals
the unbounded scan. -/
def countScanAux (m : List Char → Option ℕ) : ℕ → List Char → ℕ
  | 0, _ => 0
  | _, [] => 0
  | fuel + 1, c :: cs =>
    match m (c :: cs) with
    | some l => countScanAux m fuel (List.drop (l - 1) cs) + 1
    | none => countScanAux m fuel cs

/-- The scan of `re.finditer(pattern, text)`: try the matcher at each index,
resume after each (non-empty) match; count the matches. -/
def countScan (m : List Char → Option ℕ) (s : List Char) : ℕ :=
  countScanAux m s.length s

/-- The five literal patterns of `GEOMetrics.authority_patterns`. -/
def authority_patterns : List (List Char) :=
  ["araştırmalar gösteriyor".toList, "çalışmalar kanıtlıyor".toList,
   "uzmanlar belirtiyor".toList, "bilimsel veriler".toList,
   "istatistikler gösteriyor".toList]

/-- The `authority_score` entry of `GEOMetrics.analyze_authority_language`:
the patterns (all literal) are scanned over `text.lower()`. -/
def analyze_authority_score (text : List Char) : ℕ :=
  (authority_patterns.map fun p => countScan (litM p) (lowerStr text)).sum

/-- The `statistics_score` entry of `GEOMetrics.analyze_statistics`: the four
patterns of `statistic_patterns`, scanned case-sensitively over `text`. -/
def analyze_statistics_score (text : List Char) : ℕ :=
  countScan numPercentM text
    + countScan (numWordM ["kişi".toList, "kullanıcı".toList, "insan".toList]) text
    + countScan decimalM text
    + countScan (numWordM ["milyon".toList, "milyar".toList]) text

/-- `GEOMetrics.calculate_subjective_impression`. -/
def calculate_subjective_impression (text : List Char) : ℚ :=
  (0.4 : ℚ) * min ((analyze_authority_score text : ℚ) / 5) 1
    + (0.6 : ℚ) * min ((analyze_statistics_score text : ℚ) / 5) 1

/-! ### `SEOAnalyzer` (src/seo_analyzer.py) -/

/-- The four keys of `SEOAnalyzer.geo_patterns`. -/
inductive PatternType
  | authority
  | statistics
  | citations
  | expert_language
deriving DecidableEq

/-- The rule lists of `SEOAnalyzer.geo_patterns`, as matchers.  Every rule is
applied with `re.IGNORECASE`, modelled by scanning the lower-cased text (all
pattern literals are already lower-case). -/
def seo_geo_patterns : PatternType → List (List Char → Option ℕ)
  | .authority =>
    [litM "araştırmalar gösteriyor".toList, litM "uzmanlar belirtiyor".toList,
     litM "bilimsel veriler".toList, litM "kanıtlanmış".toList,
     litM "çalışmalar gösteriyor".toList]
  | .statistics =>
    [numPercentM, numWordM ["kişi".toList], decimalM,
     numWordM ["milyon".toList, "milyar".toList]]
  | .citations =>
    [litM "kaynak:".toList, litM "referans:".toList, litM "alıntı:".toList,
     bracketNumM, yearParenM]
  | .expert_language =>
    [litM "analiz".toList, litM "metodoloji".toList, litM "hipotez".toList,
     litM "sonuç olarak".toList, litM "bu bağlamda".toList]

/-- The `count` and `score` entries of one category's result in
`SEOAnalyzer.analyze_geo_patterns` (the `matches` list is the same
information as `count`, one entry per match). -/
structure PatternResult where
  count : ℕ
  score : ℚ
deriving DecidableEq

/-- `SEOAnalyzer.analyze_geo_patterns`, one category at a time. -/
def analyze_geo_patterns (text : List Char) (c : PatternType) : PatternResult :=
  let count := ((seo_geo_patterns c).map fun m => countScan m (lowerStr text)).sum
  { count := count, score := min ((count : ℚ) / 5) 1 }

/-- `numpy.mean` of a list of defined values: `NaN` (modelled `none`) on the
empty list, the arithmetic mean otherwise. -/
def npMean (l : List ℚ) : Option ℚ :=
  if l.isEmpty then none else some (l.sum / l.length)

/-- Sequence a list of possibly-NaN values: any `NaN` poisons the list (as it
poisons `numpy.mean`). -/
def optList : List (Option ℚ) → Option (List ℚ)
  | [] => some []
  | none :: _ => none
  | some a :: l => (optList l).map fun r => a :: r

/-- Keep every element of a piece list except empty pieces lying strictly
between two delimiters (turning the single-delimiter split into the
`[.!?]+`-split, which treats a run of delimiters as one separator). -/
def dropInnerEmpties : List (List Char) → List (List Char)
  | [] => []
  | [p] => [p]
  | p :: q :: ps =>
    if p.isEmpty then dropInnerEmpties (q :: ps)
    else p :: dropInnerEmpties (q :: ps)

/-- Python `re.split(r'[.!?]+', text)`. -/
def splitOnDelimRuns (text : List Char) : List (List Char) :=
  match splitOnDelim text with
  | [] => []
  | p :: ps => p :: dropInnerEmpties ps

/-- Python `len(re.split(r'\n\s*\n', text))`: one more than the number of
paragraph separators. -/
def paragraphCount (text : List Char) : ℕ := countScan paraSepM text + 1

/-- The dict returned by `SEOAnalyzer.calculate_content_quality_score`.
Fields are `Option ℚ`: `none` models a NaN float. -/
structure QualityScores where
  length_score : Option ℚ
  readability_score : Option ℚ
  structure_score : Option ℚ
  overall_score : Option ℚ
deriving DecidableEq

/-- `SEOAnalyzer.calculate_content_quality_score`.  `avg_sentence_length` is
`np.mean` of the word counts of the sentences with non-empty strip — `NaN`
(here `none`) when there is no such sentence — and NaN propagates through
`min`, subtraction and `np.mean` of the three scores. -/
def calculate_content_quality_score (text : List Char) : QualityScores :=
  let words : ℕ := wordCount text
  let sentences := splitOnDelimRuns text
  let lengths : List ℚ := sentences.filterMap fun s =>
    if (pyStrip s).isEmpty then none else some (wordCount s : ℚ)
  let avg_sentence_length : Option ℚ := npMean lengths
  let length_score : Option ℚ := some (min ((words : ℚ) / 1000) 1)
  let readability_score : Option ℚ :=
    avg_sentence_length.map fun a => 1 - min (|a - 15| / 15) 1
  let structure_score : Option ℚ := some (min ((paragraphCount text : ℚ) / 10) 1)
  { length_score := length_score
    readability_score := readability_score
    structure_score := structure_score
    overall_score :=
      (optList [length_score, readability_score, structure_score]).bind npMean }

/-! ### `GEOMetrics.calculate_metrics` -/

/-- The dict returned by `GEOMetrics.calculate_metrics`; the two nested
analysis dicts are represented by their numeric scores. -/
structure MetricsResult where
  word_count_metric : ℚ
  position_adjusted_metric : ℝ
  source_positions : List (ℕ × ℕ)
  authority_score : ℕ
  statistics_score : ℕ
  subjective_impression_score : ℚ

/-- `GEOMetrics.calculate_metrics` with decay constant `lam`; `none` would be
an uncaught runtime fault. -/
noncomputable def calculate_metrics (lam : ℝ) (source_text response_text : List Char) :
    Option MetricsResult :=
  let source_sentences := split_into_sentences source_text
  let response_sentences := split_into_sentences response_text
  let source_words := wordCount source_text
  let total_words := wordCount response_text
  let sentence_positions := find_source_positions source_sentences response_sentences
  (word_count_metric source_words total_words).bind fun wc =>
    (position_adjusted_metric lam sentence_positions total_words).map fun pos =>
      { word_count_metric := wc
        position_adjusted_metric := pos
        source_positions := sentence_positions
        authority_score := analyze_authority_score response_text
        statistics_score := analyze_statistics_score response_text
        subjective_impression_score := calculate_subjective_impression response_text }

/-! ### Helper lemmas -/

lemma pyDiv_of_ne (a b : ℚ) (hb : b ≠ 0) : pyDiv a b = some (a / b) := by
  simp [pyDiv, hb]

lemma word_count_metric_zero (s : ℤ) : word_count_metric s 0 = some 0 := by
  simp [word_count_metric]

lemma word_count_metric_of_ne (s t : ℤ) (ht : t ≠ 0) :
    word_count_metric s t = some ((s : ℚ) / (t : ℚ)) := by
  have : ((t : ℚ)) ≠ 0 := Int.cast_ne_zero.mpr ht
  simp [word_count_metric, pyDiv, ht, this]

lemma min_div_five_eq_one {n : ℕ} (h : 5 ≤ n) : min ((n : ℚ) / 5) 1 = 1 := by
  have h1 : (1 : ℚ) ≤ (n : ℚ) / 5 := by
    rw [le_div_iff₀ (by norm_num : (0 : ℚ) < 5)]
    exact_mod_cast by simpa using h
  exact min_eq_right h1

lemma min_div_five_nonneg (n : ℕ) : 0 ≤ min ((n : ℚ) / 5) 1 :=
  le_min (by positivity) zero_le_one

/-- C3: `word_count_metric` is the exact ratio `source_words / total_words`,
and exactly `0` when `total_words = 0` (no division-by-zero fault);
`word_count_metric 5 10 = 0.5`, `word_count_metric 5 0 = 0`,
`word_count_metric 10 10 = 1`. -/
theorem C3_word_count_metric (source_words total_words : ℤ) :
    (total_words = 0 → word_count_metric source_words total_words = some 0) ∧
    (total_words ≠ 0 →
      word_count_metric source_words total_words =
        some ((source_words : ℚ) / (total_words : ℚ))) ∧
    word_count_metric 5 10 = some (1 / 2) ∧
    word_count_metric 5 0 = some 0 ∧
    word_count_metric 10 10 = some 1 := by
  refine ⟨?_, ?_, by norm_num [word_count_metric, pyDiv],
    by norm_num [word_count_metric, pyDiv], by norm_num [word_count_metric, pyDiv]⟩
  · intro h; rw [h]; exact word_count_metric_zero source_words
  · intro h; exact word_count_metric_of_ne source_words total_words h

/-- Witness for C3 at concrete inputs. -/
theorem C3_word_count_metric_witness :
    word_count_metric 7 0 = some 0 ∧ word_count_metric 7 2 = some ((7 : ℚ) / 2) := by
  constructor
  · exact (C3_word_count_metric 7 0).1 rfl
  · have h := (C3_word_count_metric 7 2).2.1 (by decide)
    simpa using h

lemma calculate_metrics_some (lam : ℝ) (source response : List Char)
    (h : wordCount response ≠ 0) :
    calculate_metrics lam source response =
      some { word_count_metric := (wordCount source : ℚ) / (wordCount response : ℚ)
             position_adjusted_metric :=
               weightedSum lam (find_source_positions (split_into_sentences source)
                 (split_into_sentences response)) / (wordCount response : ℝ)
             source_positions := find_source_positions (split_into_sentences source)
               (split_into_sentences response)
             authority_score := analyze_authority_score response
             statistics_score := analyze_statistics_score response
             subjective_impression_score := calculate_subjective_impression response } := by
  have hr : ((wordCount response : ℕ) : ℝ) ≠ 0 := Nat.cast_ne_zero.mpr h
  simp [calculate_metrics, word_count_metric, pyDiv, position_adjusted_metric, pyDivR,
    h, hr, Option.bind_eq_bind]

lemma calculate_metrics_of_zero (lam : ℝ) (source response : List Char)
    (h : wordCount response = 0) :
    calculate_metrics lam source response =
      some { word_count_metric := 0
             position_adjusted_metric := 0
             source_positions := find_source_positions (split_into_sentences source)
               (split_into_sentences response)
             authority_score := analyze_authority_score response
             statistics_score := analyze_statistics_score response
             subjective_impression_score := calculate_subjective_impression response } := by
  simp [calculate_metrics, word_count_metric, position_adjusted_metric, h,
    Option.bind_eq_bind]

/-- C4 counterexample: `word_count_metric 3 1 = 3 ∉ [0,1]`, and
`calculate_metrics` reaches exactly this call on source `"a b c"` and
response `"a"` (full source word count over response word count). -/
theorem C4_counterexample :
    word_count_metric 3 1 = some 3 ∧ ¬ ((3 : ℚ) ≤ 1) ∧
    (calculate_metrics 10 ("a b c".toList) ("a".toList)).map
        MetricsResult.word_count_metric = some 3 := by
  refine ⟨by norm_num [word_count_metric, pyDiv], by norm_num, ?_⟩
  rw [calculate_metrics_some 10 ("a b c".toList) ("a".toList) (by decide)]
  have h3 : wordCount ['a', ' ', 'b', ' ', 'c'] = 3 := by decide
  have h1 : wordCount ['a'] = 1 := by decide
  rw [Option.map]
  simp [h3, h1]

/-- C4 amended: on non-negative integer inputs the value of
`word_count_metric` is always ≥ 0; it lies in `[0, 1]` whenever
`source_words ≤ total_words` (in particular it is 0 when `total_words = 0`,
by the guard); and it exceeds 1 in the remaining case
`0 < total_words < source_words` — reachable from `calculate_metrics`, which
passes the full source-text word count as numerator. -/
theorem C4_word_count_metric_range (source_words total_words : ℕ) :
    (∃ q : ℚ, word_count_metric (source_words : ℤ) (total_words : ℤ) = some q ∧
      0 ≤ q) ∧
    (source_words ≤ total_words →
      ∃ q : ℚ, word_count_metric (source_words : ℤ) (total_words : ℤ) = some q ∧
        0 ≤ q ∧ q ≤ 1) ∧
    (total_words ≠ 0 → total_words < source_words →
      ∃ q : ℚ, word_count_metric (source_words : ℤ) (total_words : ℤ) = some q ∧
        1 < q) := by
  refine ⟨?_, ?_, ?_⟩
  · by_cases h0 : (total_words : ℤ) = 0
    · exact ⟨0, by rw [h0]; exact word_count_metric_zero _, le_refl 0⟩
    · refine ⟨((source_words : ℕ) : ℚ) / ((total_words : ℕ) : ℚ), ?_, by positivity⟩
      rw [word_count_metric_of_ne _ _ h0]
      norm_num
  · intro h
    by_cases h0 : (total_words : ℤ) = 0
    · exact ⟨0, by rw [h0]; exact word_count_metric_zero _, le_refl 0, by norm_num⟩
    · refine ⟨((source_words : ℕ) : ℚ) / ((total_words : ℕ) : ℚ),
        ?_, by positivity, ?_⟩
      · rw [word_count_metric_of_ne _ _ h0]
        norm_num
      · have hpos : (0 : ℚ) < (total_words : ℚ) := by
          have : total_words ≠ 0 := by exact_mod_cast h0
          exact_mod_cast Nat.pos_of_ne_zero this
        rw [div_le_one hpos]
        exact_mod_cast h
  · intro h0 hlt
    have h0' : (total_words : ℤ) ≠ 0 := by exact_mod_cast h0
    refine ⟨((source_words : ℕ) : ℚ) / ((total_words : ℕ) : ℚ), ?_, ?_⟩
    · rw [word_count_metric_of_ne _ _ h0']
      norm_num
    · have hpos : (0 : ℚ) < (total_words : ℚ) := by
        exact_mod_cast Nat.pos_of_ne_zero h0
      rw [one_lt_div hpos]
      exact_mod_cast hlt

/-- Witness for the amended C4 at concrete inputs, exercising both the
in-range branch and the exceeds-1 branch. -/
theorem C4_word_count_metric_range_witness :
    (∃ q : ℚ, word_count_metric (5 : ℤ) (10 : ℤ) = some q ∧ 0 ≤ q ∧ q ≤ 1) ∧
    (∃ q : ℚ, word_count_metric (3 : ℤ) (1 : ℤ) = some q ∧ 1 < q) := by
  constructor
  · have h := (C4_word_count_metric_range 5 10).2.1 (by decide)
    exact_mod_cast h
  · have h := (C4_word_count_metric_range 3 1).2.2 (by decide) (by decide)
    exact_mod_cast h

/-- C5: in `analyze_geo_patterns` every category's normalized score is
`min(count / 5, 1)`; five or more raw matches saturate the score at 1, and
zero matches give score 0. -/
theorem C5_pattern_score_saturation (text : List Char) (c : PatternType) :
    (analyze_geo_patterns text c).score
        = min (((analyze_geo_patterns text c).count : ℚ) / 5) 1 ∧
    (5 ≤ (analyze_geo_patterns text c).count →
      (analyze_geo_patterns text c).score = 1) ∧
    ((analyze_geo_patterns text c).count = 0 →
      (analyze_geo_patterns text c).score = 0) := by
  refine ⟨rfl, ?_, ?_⟩
  · intro h
    show min (((analyze_geo_patterns text c).count : ℚ) / 5) 1 = 1
    exact min_div_five_eq_one h
  · intro h
    show min (((analyze_geo_patterns text c).count : ℚ) / 5) 1 = 0
    rw [h]
    norm_num

/-- Witness for C5: a category with five matches saturates at score 1, one
with zero matches scores 0. -/
theorem C5_pattern_score_saturation_witness :
    (analyze_geo_patterns ("kaynak: kaynak: kaynak: kaynak: kaynak:".toList)
        PatternType.citations).score = 1 ∧
    (analyze_geo_patterns [] PatternType.authority).score = 0 :=
  ⟨(C5_pattern_score_saturation ("kaynak: kaynak: kaynak: kaynak: kaynak:".toList)
      PatternType.citations).2.1 (by decide),
   (C5_pattern_score_saturation [] PatternType.authority).2.2 (by decide)⟩

/-- C7: the composite subjective-impression score is
`0.4 · min(authority/5, 1) + 0.6 · min(statistics/5, 1)` and always lies
in `[0, 1]`. -/
theorem C7_subjective_impression_range (text : List Char) :
    calculate_subjective_impression text
        = 0.4 * min ((analyze_authority_score text : ℚ) / 5) 1
          + 0.6 * min ((analyze_statistics_score text : ℚ) / 5) 1 ∧
    0 ≤ calculate_subjective_impression text ∧
    calculate_subjective_impression text ≤ 1 := by
  refine ⟨rfl, ?_, ?_⟩
  · have ha := min_div_five_nonneg (analyze_authority_score text)
    have hs := min_div_five_nonneg (analyze_statistics_score text)
    unfold calculate_subjective_impression
    nlinarith
  · have ha : min ((analyze_authority_score text : ℚ) / 5) 1 ≤ 1 := min_le_right _ _
    have hs : min ((analyze_statistics_score text : ℚ) / 5) 1 ≤ 1 := min_le_right _ _
    unfold calculate_subjective_impression
    nlinarith

lemma find_source_positions_foldl (responses : List (List Char)) :
    ∀ (sources : List (List Char)) (acc : List (ℕ × ℕ)),
      sources.foldl
        (fun positions source =>
          match firstContainIdx source responses 1 with
          | some i => positions ++ [(wordCount source, i)]
          | none => positions) acc
      = acc ++ sources.filterMap fun source =>
          (firstContainIdx source responses 1).map fun i => (wordCount source, i)
  | [], acc => by simp
  | source :: sources, acc => by
    rw [List.foldl_cons, List.filterMap_cons]
    cases h : firstContainIdx source responses 1 with
    | none =>
      simp only [h, Option.map_none']
      exact find_source_positions_foldl responses sources acc
    | some i =>
      simp only [h, Option.map_some']
      rw [find_source_positions_foldl responses sources (acc ++ [(wordCount source, i)])]
      simp

/-- `find_source_positions` keeps, per source sentence in order, the first
matching response index paired with the source word count. -/
lemma find_source_positions_eq (sources responses : List (List Char)) :
    find_source_positions sources responses
      = sources.filterMap fun source =>
          (firstContainIdx source responses 1).map fun i => (wordCount source, i) := by
  rw [find_source_positions]
  simpa using find_source_positions_foldl responses sources []

/-- What a successful `firstContainIdx` scan means: the index is within range
(counted from `start`), that response sentence matches, and no earlier one
does. -/
lemma firstContainIdx_some_spec (source : List Char) :
    ∀ (rs : List (List Char)) (start i : ℕ),
      firstContainIdx source rs start = some i →
      start ≤ i ∧ i - start < rs.length ∧
      (∃ r, rs[i - start]? = some r ∧
        containsSub (lowerStr source) (lowerStr r) = true) ∧
      (∀ j r, j < i - start → rs[j]? = some r →
        containsSub (lowerStr source) (lowerStr r) = false)
  | [], start, i => by intro h; exact absurd h (by simp [firstContainIdx])
  | r :: rs, start, i => by
    intro h
    rw [firstContainIdx] at h
    by_cases hc : containsSub (lowerStr source) (lowerStr r) = true
    · rw [if_pos hc] at h
      obtain rfl : start = i := by injection h
      refine ⟨le_refl _, by simp, ⟨r, by simp, hc⟩, ?_⟩
      intro j r' hj _
      exact absurd hj (by omega)
    · rw [if_neg hc] at h
      obtain ⟨h1, h2, ⟨r', hr', hc'⟩, hall⟩ :=
        firstContainIdx_some_spec source rs (start + 1) i h
      have hstart : start ≤ i := by omega
      have hsub : i - start = (i - (start + 1)) + 1 := by omega
      refine ⟨hstart, by simp only [List.length_cons]; omega, ⟨r', ?_, hc'⟩, ?_⟩
      · rw [hsub, List.getElem?_cons_succ]
        exact hr'
      · intro j r'' hj hr''
        match j with
        | 0 =>
          rw [List.getElem?_cons_zero] at hr''
          obtain rfl : r = r'' := by injection hr''
          simpa using hc
        | j' + 1 =>
          rw [List.getElem?_cons_succ] at hr''
          exact hall j' r'' (by omega) hr''

/-- A source sentence contained in no response sentence is never found. -/
lemma firstContainIdx_none_of_all (source : List Char) :
    ∀ (rs : List (List Char)) (start : ℕ),
      (∀ r ∈ rs, containsSub (lowerStr source) (lowerStr r) = false) →
      firstContainIdx source rs start = none
  | [], _, _ => rfl
  | r :: rs, start, h => by
    rw [firstContainIdx]
    rw [h r (by simp)]
    simp only [Bool.false_eq_true, if_false]
    exact firstContainIdx_none_of_all source rs (start + 1)
      fun r' hr' => h r' (List.mem_cons_of_mem r hr')

/-- C2: attribution is per-source-sentence in order; each record pairs the
source word count with the 1-based index of the first response sentence whose
lower-cased text contains the lower-cased source sentence (so at most one
record per source, every position is ≥ 1, and an unmatched source yields no
record); on responses `["A B C", "X Y", "A B C D"]` the source `"A B C"` is
attributed to position 1, not 3. -/
theorem C2_attribution_first_match (sources responses : List (List Char)) :
    (find_source_positions sources responses
        = sources.filterMap fun source =>
            (firstContainIdx source responses 1).map fun i => (wordCount source, i)) ∧
    (∀ source i, firstContainIdx source responses 1 = some i →
      1 ≤ i ∧
      (∃ r, responses[i - 1]? = some r ∧
        containsSub (lowerStr source) (lowerStr r) = true) ∧
      (∀ j r, j < i - 1 → responses[j]? = some r →
        containsSub (lowerStr source) (lowerStr r) = false)) ∧
    (∀ source, (∀ r ∈ responses, containsSub (lowerStr source) (lowerStr r) = false) →
      firstContainIdx source responses 1 = none) ∧
    find_source_positions ["A B C".toList] ["A B C".toList, "X Y".toList, "A B C D".toList]
      = [(3, 1)] := by
  refine ⟨find_source_positions_eq sources responses, ?_, ?_, by decide⟩
  · intro source i h
    obtain ⟨h1, _, h3, h4⟩ := firstContainIdx_some_spec source responses 1 i h
    exact ⟨h1, h3, h4⟩
  · intro source h
    exact firstContainIdx_none_of_all source responses 1 h

/-- Witness for C2 at concrete inputs. -/
theorem C2_attribution_first_match_witness :
    (1 ≤ 3 ∧
      (∃ r, [("x".toList), ("y".toList), ("a b".toList)][(3 : ℕ) - 1]? = some r ∧
        containsSub (lowerStr ("a b".toList)) (lowerStr r) = true) ∧
      (∀ j r, j < (3 : ℕ) - 1 → [("x".toList), ("y".toList), ("a b".toList)][j]? = some r →
        containsSub (lowerStr ("a b".toList)) (lowerStr r) = false)) ∧
    firstContainIdx ("zzz".toList) [("x".toList)] 1 = none :=
  ⟨(C2_attribution_first_match [] [("x".toList), ("y".toList), ("a b".toList)]).2.1
      ("a b".toList) 3 (by decide),
   (C2_attribution_first_match [] [("x".toList)]).2.2.1 ("zzz".toList) (by decide)⟩

lemma splitWsAux_ne_nil :
    ∀ (l acc : List Char), (acc ≠ [] ∨ ∃ c ∈ l, pyIsSpace c = false) →
      splitWsAux l acc ≠ []
  | [], acc, h => by
    rcases h with hne | ⟨c, hc, _⟩
    · simp [splitWsAux, hne]
    · exact absurd hc (List.not_mem_nil c)
  | a :: l, acc, h => by
    rw [splitWsAux]
    by_cases ha : pyIsSpace a = true
    · rw [if_pos ha]
      by_cases hacc : acc.isEmpty
      · rw [if_pos hacc]
        apply splitWsAux_ne_nil l []
        right
        rcases h with hne | ⟨c, hc, hcs⟩
        · exact absurd (List.isEmpty_iff.mp hacc) hne
        · refine ⟨c, ?_, hcs⟩
          rcases List.mem_cons.mp hc with rfl | hcl
          · exact absurd ha (by rw [hcs]; simp)
          · exact hcl
      · rw [if_neg hacc]
        simp
    · rw [if_neg ha]
      apply splitWsAux_ne_nil l (a :: acc)
      left
      simp

/-- A list with at least one non-whitespace character has `wordCount ≥ 1`. -/
lemma wordCount_pos (s : List Char) (h : ∃ c ∈ s, pyIsSpace c = false) :
    1 ≤ wordCount s := by
  have hne := splitWsAux_ne_nil s [] (Or.inr h)
  rw [wordCount, splitWs]
  exact List.length_pos.mpr hne

/-- A non-empty stripped string contains a non-whitespace character. -/
lemma pyStrip_has_nonspace (p : List Char) (h : pyStrip p ≠ []) :
    ∃ c ∈ pyStrip p, pyIsSpace c = false := by
  rw [pyStrip] at h ⊢
  have hne : (p.dropWhile pyIsSpace).reverse.dropWhile pyIsSpace ≠ [] := by
    intro hh
    exact h (by rw [hh]; rfl)
  refine ⟨((p.dropWhile pyIsSpace).reverse.dropWhile pyIsSpace).head hne, ?_, ?_⟩
  · rw [List.mem_reverse]
    exact List.head_mem hne
  · exact List.head_dropWhile_not pyIsSpace _ hne

/-- Every element of `split_into_sentences` is a non-empty stripped piece. -/
lemma mem_split_into_sentences (text s : List Char) (h : s ∈ split_into_sentences text) :
    ∃ p, s = pyStrip p ∧ s ≠ [] := by
  rw [split_into_sentences] at h
  obtain ⟨p, _, hp⟩ := List.mem_filterMap.mp h
  by_cases he : (pyStrip p).isEmpty
  · simp [he] at hp
  · have hp' : pyStrip p = s := by simpa [he] using hp
    refine ⟨p, hp'.symm, ?_⟩
    rw [← hp']
    exact fun hh => he (by rw [hh]; rfl)

/-- Each attribution record comes from some source sentence via a successful
first-match scan. -/
lemma mem_find_source_positions (sources responses : List (List Char))
    (wc pos : ℕ) (h : (wc, pos) ∈ find_source_positions sources responses) :
    ∃ source ∈ sources, firstContainIdx source responses 1 = some pos ∧
      wc = wordCount source := by
  rw [find_source_positions_eq] at h
  obtain ⟨source, hs, hf⟩ := List.mem_filterMap.mp h
  cases hidx : firstContainIdx source responses 1 with
  | none => rw [hidx] at hf; simp at hf
  | some i =>
    rw [hidx, Option.map_some'] at hf
    simp only [Option.some.injEq, Prod.mk.injEq] at hf
    exact ⟨source, hs, hf.2 ▸ hidx, hf.1.symm⟩

/-- C10: every recorded position indexes an actual response sentence
(`1 ≤ pos ≤ responses.length`), and when the source sentences come from
`split_into_sentences` every recorded word count is at least 1. -/
theorem C10_record_bounds (sources responses : List (List Char)) :
    (∀ wc pos, (wc, pos) ∈ find_source_positions sources responses →
      1 ≤ pos ∧ pos ≤ responses.length) ∧
    (∀ text, sources = split_into_sentences text →
      ∀ wc pos, (wc, pos) ∈ find_source_positions sources responses → 1 ≤ wc) := by
  constructor
  · intro wc pos h
    obtain ⟨source, _, hidx, _⟩ := mem_find_source_positions sources responses wc pos h
    obtain ⟨h1, h2, _, _⟩ := firstContainIdx_some_spec source responses 1 pos hidx
    exact ⟨h1, by omega⟩
  · intro text htext wc pos h
    obtain ⟨source, hs, _, hwc⟩ := mem_find_source_positions sources responses wc pos h
    rw [htext] at hs
    obtain ⟨p, hp, hne⟩ := mem_split_into_sentences text source hs
    rw [hwc]
    exact wordCount_pos source (hp ▸ pyStrip_has_nonspace p (hp ▸ hne))

/-- Witness for C10 at concrete inputs. -/
theorem C10_record_bounds_witness :
    (1 ≤ 1 ∧ 1 ≤ [("say hello there now".toList)].length) ∧ 1 ≤ 2 :=
  ⟨(C10_record_bounds (split_into_sentences ("Hello there. World".toList))
        [("say hello there now".toList)]).1 2 1 (by decide),
   (C10_record_bounds (split_into_sentences ("Hello there. World".toList))
        [("say hello there now".toList)]).2 ("Hello there. World".toList) rfl
      2 1 (by decide)⟩

/-- C6: the linguistic rule scans are case-insensitive — texts with the same
lower-casing get the same authority score (`GEOMetrics`) and the same
linguistic category results (`SEOAnalyzer`) — while
`GEOMetrics.analyze_statistics` scans case-sensitively: a case variant of
`"5 milyon"` drops its statistics count from 1 to 0. -/
theorem C6_case_sensitivity :
    (∀ s t : List Char, lowerStr s = lowerStr t →
      analyze_authority_score s = analyze_authority_score t) ∧
    (∀ s t : List Char, lowerStr s = lowerStr t → ∀ c : PatternType,
      c ≠ PatternType.statistics → analyze_geo_patterns s c = analyze_geo_patterns t c) ∧
    lowerStr ("5 MILYON".toList) = lowerStr ("5 milyon".toList) ∧
    analyze_statistics_score ("5 milyon".toList) = 1 ∧
    analyze_statistics_score ("5 MILYON".toList) = 0 := by
  refine ⟨?_, ?_, by decide, by decide, by decide⟩
  · intro s t h
    simp only [analyze_authority_score, h]
  · intro s t h c _
    simp only [analyze_geo_patterns, h]

/-- Witness for C6 at concrete inputs. -/
theorem C6_case_sensitivity_witness :
    analyze_authority_score ("Uzmanlar belirtiyor ki".toList)
        = analyze_authority_score ("uzmanlar belirtiyor KI".toList) ∧
    analyze_geo_patterns ("KAYNAK: deneme".toList) PatternType.citations
        = analyze_geo_patterns ("kaynak: DENEME".toList) PatternType.citations :=
  ⟨C6_case_sensitivity.1 ("Uzmanlar belirtiyor ki".toList)
      ("uzmanlar belirtiyor KI".toList) (by decide),
   C6_case_sensitivity.2.1 ("KAYNAK: deneme".toList) ("kaynak: DENEME".toList)
      (by decide) PatternType.citations (by decide)⟩

/-- C8 (the claimed guard is absent): on empty — or whitespace-only — text
there are zero non-empty sentences, `np.mean` of the empty list is NaN
(modelled `none`) rather than 0, and the NaN propagates: the readability and
overall scores are undefined, not defined neutral numbers. -/
theorem C8_empty_text_nan_scores :
    calculate_content_quality_score [] =
      { length_score := some 0, readability_score := none,
        structure_score := some (1 / 10), overall_score := none } ∧
    calculate_content_quality_score ("   ".toList) =
      { length_score := some 0, readability_score := none,
        structure_score := some (1 / 10), overall_score := none } := by
  have key : calculate_content_quality_score [] =
      { length_score := some (min ((0 : ℚ) / 1000) 1)
        readability_score := none
        structure_score := some (min ((1 : ℚ) / 10) 1)
        overall_score := none } := rfl
  have key2 : calculate_content_quality_score ("   ".toList) =
      { length_score := some (min ((0 : ℚ) / 1000) 1)
        readability_score := none
        structure_score := some (min ((1 : ℚ) / 10) 1)
        overall_score := none } := rfl
  constructor <;>
  · first
    | rw [key, QualityScores.mk.injEq]
    | rw [key2, QualityScores.mk.injEq]
    refine ⟨?_, rfl, ?_, rfl⟩ <;> · rw [min_def]; norm_num

lemma splitOnDelim_no_delim :
    ∀ (text : List Char) p, p ∈ splitOnDelim text → ∀ c ∈ p, isSentDelim c = false
  | [], p, hp => by
    rw [splitOnDelim] at hp
    obtain rfl : p = [] := by simpa using hp
    intro c hc
    exact absurd hc (List.not_mem_nil c)
  | a :: text, p, hp => by
    rw [splitOnDelim] at hp
    by_cases ha : isSentDelim a = true
    · rw [if_pos ha] at hp
      rcases List.mem_cons.mp hp with rfl | hp'
      · intro c hc
        exact absurd hc (List.not_mem_nil c)
      · exact splitOnDelim_no_delim text p hp'
    · rw [if_neg ha] at hp
      cases hsp : splitOnDelim text with
      | nil =>
        rw [hsp] at hp
        obtain rfl : p = [a] := by simpa using hp
        intro c hc
        obtain rfl : c = a := by simpa using hc
        simpa using ha
      | cons q qs =>
        rw [hsp] at hp
        rcases List.mem_cons.mp hp with rfl | hp'
        · intro c hc
          rcases List.mem_cons.mp hc with rfl | hcq
          · simpa using ha
          · exact splitOnDelim_no_delim text q (hsp ▸ List.mem_cons_self q qs) c hcq
        · exact splitOnDelim_no_delim text p (hsp ▸ List.mem_cons_of_mem q hp')

lemma splitOnDelim_chars :
    ∀ (text : List Char) p, p ∈ splitOnDelim text → ∀ c ∈ p, c ∈ text
  | [], p, hp => by
    rw [splitOnDelim] at hp
    obtain rfl : p = [] := by simpa using hp
    intro c hc
    exact absurd hc (List.not_mem_nil c)
  | a :: text, p, hp => by
    rw [splitOnDelim] at hp
    by_cases ha : isSentDelim a = true
    · rw [if_pos ha] at hp
      rcases List.mem_cons.mp hp with rfl | hp'
      · intro c hc
        exact absurd hc (List.not_mem_nil c)
      · intro c hc
        exact List.mem_cons_of_mem a (splitOnDelim_chars text p hp' c hc)
    · rw [if_neg ha] at hp
      cases hsp : splitOnDelim text with
      | nil =>
        rw [hsp] at hp
        obtain rfl : p = [a] := by simpa using hp
        intro c hc
        obtain rfl : c = a := by simpa using hc
        exact List.mem_cons_self c text
      | cons q qs =>
        rw [hsp] at hp
        rcases List.mem_cons.mp hp with rfl | hp'
        · intro c hc
          rcases List.mem_cons.mp hc with rfl | hcq
          · exact List.mem_cons_self c text
          · exact List.mem_cons_of_mem a
              (splitOnDelim_chars text q (hsp ▸ List.mem_cons_self q qs) c hcq)
        · intro c hc
          exact List.mem_cons_of_mem a
            (splitOnDelim_chars text p (hsp ▸ List.mem_cons_of_mem q hp') c hc)

lemma pyStrip_subset (p : List Char) : ∀ c ∈ pyStrip p, c ∈ p := by
  intro c hc
  rw [pyStrip, List.mem_reverse] at hc
  have h1 : c ∈ (p.dropWhile pyIsSpace).reverse :=
    (List.dropWhile_sublist pyIsSpace).mem hc
  rw [List.mem_reverse] at h1
  exact (List.dropWhile_sublist pyIsSpace).mem h1

/-- Text consisting only of sentence delimiters and whitespace yields no
sentences. -/
lemma split_into_sentences_degenerate (text : List Char)
    (h : ∀ c ∈ text, isSentDelim c = true ∨ pyIsSpace c = true) :
    split_into_sentences text = [] := by
  rw [split_into_sentences, List.filterMap_eq_nil_iff]
  intro p hp
  by_cases he : (pyStrip p).isEmpty
  · simp [he]
  · exfalso
    have hne : pyStrip p ≠ [] := fun hh => he (by rw [hh]; rfl)
    obtain ⟨c, hc, hcs⟩ := pyStrip_has_nonspace p hne
    have hcp : c ∈ p := pyStrip_subset p c hc
    have hcd : isSentDelim c = false := splitOnDelim_no_delim text p hp c hcp
    have hctext : c ∈ text := splitOnDelim_chars text p hp c hcp
    rcases h c hctext with hd | hw
    · rw [hcd] at hd; exact Bool.false_ne_true hd
    · rw [hcs] at hw; exact Bool.false_ne_true hw

/-- C9: `calculate_metrics` always returns a result (no exception) for every
pair of input texts; text made only of sentence punctuation and whitespace
splits into no sentences; and with zero response words, or with no
attribution records, the affected metrics are exactly 0. -/
theorem C9_degenerate_inputs (source_text response_text : List Char) :
    (∃ m, calculate_metrics 10 source_text response_text = some m) ∧
    (∀ text : List Char, (∀ c ∈ text, isSentDelim c = true ∨ pyIsSpace c = true) →
      split_into_sentences text = []) ∧
    (wordCount response_text = 0 → ∀ m,
      calculate_metrics 10 source_text response_text = some m →
      m.word_count_metric = 0 ∧ m.position_adjusted_metric = 0) ∧
    (∀ m, calculate_metrics 10 source_text response_text = some m →
      m.source_positions = [] → m.position_adjusted_metric = 0) := by
  refine ⟨?_, fun text h => split_into_sentences_degenerate text h, ?_, ?_⟩
  · by_cases h0 : wordCount response_text = 0
    · exact ⟨_, calculate_metrics_of_zero 10 source_text response_text h0⟩
    · exact ⟨_, calculate_metrics_some 10 source_text response_text h0⟩
  · intro h0 m hm
    rw [calculate_metrics_of_zero 10 source_text response_text h0] at hm
    obtain rfl : _ = m := by injection hm
    exact ⟨rfl, rfl⟩
  · intro m hm hsp
    by_cases h0 : wordCount response_text = 0
    · rw [calculate_metrics_of_zero 10 source_text response_text h0] at hm
      obtain rfl : _ = m := by injection hm
      rfl
    · rw [calculate_metrics_some 10 source_text response_text h0] at hm
      obtain rfl : _ = m := by injection hm
      have hsp' : find_source_positions (split_into_sentences source_text)
          (split_into_sentences response_text) = [] := hsp
      show weightedSum 10 (find_source_positions (split_into_sentences source_text)
          (split_into_sentences response_text)) / (wordCount response_text : ℝ) = 0
      rw [hsp']
      show (0 : ℝ) / (wordCount response_text : ℝ) = 0
      exact zero_div _

/-- Witness for C9 at concrete inputs. -/
theorem C9_degenerate_inputs_witness :
    split_into_sentences (". ?!  ".toList) = [] ∧
    ({ word_count_metric := 0
       position_adjusted_metric := 0
       source_positions := find_source_positions (split_into_sentences [])
         (split_into_sentences [])
       authority_score := analyze_authority_score []
       statistics_score := analyze_statistics_score []
       subjective_impression_score := calculate_subjective_impression [] } :
         MetricsResult).word_count_metric = 0 :=
  ⟨(C9_degenerate_inputs [] []).2.1 (". ?!  ".toList) (by decide),
   ((C9_degenerate_inputs [] []).2.2.1 (by decide) _
      (calculate_metrics_of_zero 10 [] [] (by decide))).1⟩

lemma foldl_add_weighted (lam : ℝ) :
    ∀ (l : List (ℕ × ℕ)) (a : ℝ),
      l.foldl (fun acc wp => acc + (wp.1 : ℝ) * Real.exp (-(wp.2 : ℝ) / lam)) a
        = a + (l.map fun wp => (wp.1 : ℝ) * Real.exp (-(wp.2 : ℝ) / lam)).sum
  | [], a => by simp
  | wp :: l, a => by
    rw [List.foldl_cons, List.map_cons, List.sum_cons, foldl_add_weighted lam l]
    ring

lemma weightedSum_eq (lam : ℝ) (l : List (ℕ × ℕ)) :
    weightedSum lam l
      = (l.map fun wp => (wp.1 : ℝ) * Real.exp (-(wp.2 : ℝ) / lam)).sum := by
  rw [weightedSum, foldl_add_weighted]
  ring

/-- Taylor bound for `exp(-1/10)` around its degree-5 partial sum. -/
lemma exp_neg_tenth_bounds :
    |Real.exp (-(1 : ℝ) / 10) - 10858049 / 12000000| ≤ 7 / 4320000000 := by
  have habs : |(-(1 : ℝ) / 10)| = 1 / 10 := by
    rw [abs_div, abs_neg]
    norm_num
  have hx : |(-(1 : ℝ) / 10)| ≤ 1 := by rw [habs]; norm_num
  have hb := Real.exp_bound hx (n := 6) (by norm_num)
  have hsum : (∑ m ∈ Finset.range 6, (-(1 : ℝ) / 10) ^ m / m.factorial)
      = 10858049 / 12000000 := by
    simp [Finset.sum_range_succ, Nat.factorial]
    norm_num
  have hrhs : |(-(1 : ℝ) / 10)| ^ 6 * (((6 : ℕ).succ : ℝ) / (((6 : ℕ).factorial : ℝ) * (6 : ℕ)))
      = 7 / 4320000000 := by
    rw [habs]
    norm_num [Nat.factorial]
  rw [hsum, hrhs] at hb
  exact hb

lemma pam_concrete :
    position_adjusted_metric 10 [(10, 1)] 20
      = some (10 * Real.exp (-(1 : ℝ) / 10) / 20) := by
  rw [position_adjusted_metric, if_neg (by norm_num), pyDivR, if_neg (by norm_num),
    weightedSum_eq]
  norm_num

/-- C1: `position_adjusted_metric` is exactly 0 when the total word count is
0, otherwise the sum over records of `word_count · exp(-position/λ)` divided
by the total word count; with `λ = 10`, on `[(10, 1)]` and total 20 its value
is within `10⁻⁸` of `0.45241870901797976`, and on total 0 it is 0. -/
theorem C1_position_adjusted_metric (lam : ℝ) (sentences : List (ℕ × ℕ))
    (total_words : ℕ) :
    (total_words = 0 → position_adjusted_metric lam sentences total_words = some 0) ∧
    (total_words ≠ 0 →
      position_adjusted_metric lam sentences total_words =
        some ((sentences.map fun wp =>
          (wp.1 : ℝ) * Real.exp (-(wp.2 : ℝ) / lam)).sum / (total_words : ℝ))) ∧
    (∃ v : ℝ, position_adjusted_metric 10 [(10, 1)] 20 = some v ∧
      |v - 0.45241870901797976| < 1e-8) ∧
    position_adjusted_metric 10 [(10, 1)] 0 = some 0 := by
  refine ⟨?_, ?_, ?_, by rw [position_adjusted_metric]; simp⟩
  · intro h
    rw [position_adjusted_metric, if_pos h]
  · intro h
    rw [position_adjusted_metric, if_neg h, pyDivR,
      if_neg (Nat.cast_ne_zero.mpr h), weightedSum_eq]
  · refine ⟨10 * Real.exp (-(1 : ℝ) / 10) / 20, pam_concrete, ?_⟩
    obtain ⟨h1, h2⟩ := abs_le.mp exp_neg_tenth_bounds
    rw [abs_lt]
    constructor <;> nlinarith [h1, h2]

/-- Witness for C1 at concrete inputs. -/
theorem C1_position_adjusted_metric_witness :
    position_adjusted_metric 10 [(10, 1)] 0 = some 0 ∧
    position_adjusted_metric 10 [(3, 2)] 6 =
      some (([((3 : ℕ), (2 : ℕ))].map fun wp =>
        (wp.1 : ℝ) * Real.exp (-(wp.2 : ℝ) / 10)).sum / ((6 : ℕ) : ℝ)) :=
  ⟨(C1_position_adjusted_metric 10 [(10, 1)] 0).1 rfl,
   (C1_position_adjusted_metric 10 [(3, 2)] 6).2.1 (by norm_num)⟩
